import Mathlib

/-!
Shallow embedding of the lexer of the json-linter_go repository
(package internal/lexer, files lexer.go and the token model file).

The Go lexer reads runes from a buffered reader, tracking a line/column
position.  We embed the reader state as the list of characters not yet
consumed together with the current position; reading a rune is taking
the head of that list.  Go ints are modelled as Int.  A Go runtime panic
(index out of range in readString, or the explicit panic on a non-EOF
read error — unreachable on a pure in-memory input) is modelled by an
Option result, with none standing for the panic.
-/

namespace JsonLinter

/-- TokenType from the token model file: the closed set of token kinds,
an integer-tagged enumeration in the source. -/
inductive TokenType where
  | ILLEGAL
  | EOF
  | LBRACE
  | RBRACE
  | LBRACKET
  | RBRACKET
  | COMMA
  | COLON
  | STR
  | NUM
  | TRUE
  | FALSE
  | NULL
  deriving DecidableEq, Repr

/-- TokenPosition from the token model file: line, inclusive column start
and column end of a token. -/
structure TokenPosition where
  line : Int
  colStart : Int
  colEnd : Int
  deriving DecidableEq, Repr

/-- Token from the token model file: kind, lexeme text and position. -/
structure Token where
  tokType : TokenType
  lexeme : String
  tokPos : TokenPosition
  deriving DecidableEq, Repr

/-- LexerPosition (lexer.go lines 14-18): current line and column of the
lexer's reader. -/
structure LexerPosition where
  line : Int
  column : Int
  deriving DecidableEq, Repr

/-- The Lexer state (lexer.go lines 20-24).  The buffered reader is
embedded as the list of characters not yet consumed. -/
structure LexerState where
  rest : List Char
  pos : LexerPosition
  deriving DecidableEq, Repr

/-- CreateLexer (lexer.go lines 35-42): initial position is line 1, column 0. -/
def CreateLexer (input : List Char) : LexerState :=
  { rest := input, pos := { line := 1, column := 0 } }

/-- advanceReader (lexer.go lines 141-150): read one rune and advance the
column; none models the io EOF error on exhausted input. -/
def advanceReader (st : LexerState) : Option (Char × LexerState) :=
  match st.rest with
  | [] => none
  | c :: cs =>
      some (c, { rest := cs,
                 pos := { line := st.pos.line, column := st.pos.column + 1 } })

/-- backupReader (lexer.go lines 153-163): push the last-read rune back and
decrement the column, but only when the column is positive.  The rune being
pushed back is passed explicitly (Go's bufio reader remembers it). -/
def backupReader (c : Char) (st : LexerState) : LexerState :=
  if st.pos.column > 0 then
    { rest := c :: st.rest,
      pos := { line := st.pos.line, column := st.pos.column - 1 } }
  else
    st

/-- resetPosition (lexer.go lines 135-138): next line, column 0. -/
def resetPosition (pos : LexerPosition) : LexerPosition :=
  { line := pos.line + 1, column := 0 }

/-- createToken (lexer.go lines 215-244): build a token from a kind, the
start position and the lexeme runes; colEnd is colStart plus the rune count
minus one, and an EOF token gets lexeme "EOF" with colEnd reset to colStart. -/
def createToken (tokType : TokenType) (pos : LexerPosition)
    (lexemeChars : List Char) : Token :=
  let lexemeStr := String.mk lexemeChars
  let visualWidth : Int := lexemeChars.length
  let colEnd : Int := pos.column + visualWidth - 1
  let tokenPos : TokenPosition :=
    { line := pos.line, colStart := pos.column, colEnd := colEnd }
  let token : Token :=
    { tokType := tokType, lexeme := lexemeStr, tokPos := tokenPos }
  if tokType = TokenType.EOF then
    { token with lexeme := "EOF",
                 tokPos := { tokenPos with colEnd := tokenPos.colStart } }
  else
    token

/-- isNumberMaybe (lexer.go lines 247-249): digits, minus, dot, e, E.
Note the set does not contain the plus sign. -/
def isNumberMaybe (r : Char) : Bool :=
  (('0' ≤ r ∧ r ≤ '9') ∨ r = '-' ∨ r = '.' ∨ r = 'e' ∨ r = 'E' : Bool)

/-- Models unicode.IsSpace from the Go standard library: the Unicode
White_Space code points (Latin-1 space characters plus the higher-plane
space characters listed in Go's unicode tables). -/
def isSpaceGo (c : Char) : Bool :=
  (c.toNat = 0x20 ∨ c.toNat = 0x9 ∨ c.toNat = 0xA ∨ c.toNat = 0xB ∨
   c.toNat = 0xC ∨ c.toNat = 0xD ∨ c.toNat = 0x85 ∨ c.toNat = 0xA0 ∨
   c.toNat = 0x1680 ∨ (0x2000 ≤ c.toNat ∧ c.toNat ≤ 0x200A) ∨
   c.toNat = 0x2028 ∨ c.toNat = 0x2029 ∨ c.toNat = 0x202F ∨
   c.toNat = 0x205F ∨ c.toNat = 0x3000 : Bool)

/-- Models unicode.IsLetter from the Go standard library restricted to the
ASCII range (for code points at or above 0x80 Go consults the Unicode
category tables; every input appearing in the claims and in JSON literals
is ASCII, and this embedding treats non-ASCII code points as non-letters). -/
def isLetterGo (c : Char) : Bool :=
  (('a' ≤ c ∧ c ≤ 'z') ∨ ('A' ≤ c ∧ c ≤ 'Z') : Bool)

/-- The regular expression of isValidJSONNumber (lexer.go line 256):
integer part is a single 0 or a nonzero digit followed by digits; returns
the remaining input after the integer part, or none when it cannot match. -/
def matchIntPart : List Char → Option (List Char)
  | [] => none
  | c :: rest =>
      if c = '0' then some rest
      else if '1' ≤ c ∧ c ≤ '9' then some (rest.dropWhile fun d => d.isDigit)
      else none

/-- The optional fraction group of the isValidJSONNumber pattern: a dot
followed by one or more digits; when the group does not match the input is
returned unchanged. -/
def matchFracPart (l : List Char) : List Char :=
  match l with
  | '.' :: d :: rest =>
      if d.isDigit then (d :: rest).dropWhile (fun c => c.isDigit) else l
  | _ => l

/-- The optional exponent group of the isValidJSONNumber pattern: e or E,
an optional sign, then one or more digits; when the group does not match
the input is returned unchanged. -/
def matchExpPart (l : List Char) : List Char :=
  match l with
  | [] => l
  | e :: rest =>
      if e = 'e' ∨ e = 'E' then
        let rest1 := match rest with
          | s :: tl => if s = '+' ∨ s = '-' then tl else rest
          | [] => rest
        match rest1 with
        | d :: tl =>
            if d.isDigit then (d :: tl).dropWhile (fun c => c.isDigit) else l
        | [] => l
      else l

/-- isValidJSONNumber (lexer.go lines 252-259): anchored match of the runes
against the pattern of an optional minus, the integer part, an optional
fraction group and an optional exponent group. -/
def isValidJSONNumber (runes : List Char) : Bool :=
  let afterSign := match runes with
    | '-' :: rest => rest
    | _ => runes
  match matchIntPart afterSign with
  | none => false
  | some r1 => (matchExpPart (matchFracPart r1)).isEmpty

/-- The reading loop of readNumber (lexer.go lines 291-306), with
advanceReader inlined as a pattern match on the unread characters so the
recursion is structural: keep reading while the rune is a number-maybe
non-space rune; on a space or non-number rune back the reader up and stop;
on end of input stop. -/
def readNumberGo (num : List Char) (pos : LexerPosition) :
    List Char → List Char × LexerState
  | [] => (num, { rest := [], pos := pos })
  | c :: cs =>
      let pos1 : LexerPosition := { line := pos.line, column := pos.column + 1 }
      if isSpaceGo c ∨ ¬ isNumberMaybe c then
        (num, backupReader c { rest := cs, pos := pos1 })
      else
        readNumberGo (num ++ [c]) pos1 cs

/-- readNumber (lexer.go lines 281-313): record the start position as the
column one past the current one, then run the reading loop.  The validity
check of the collected runes (line 308) is performed by the caller
handleNumberToken, to which the Go code communicates it as an error value. -/
def readNumber (st : LexerState) : List Char × LexerPosition × LexerState :=
  let startPos : LexerPosition := { line := st.pos.line, column := st.pos.column + 1 }
  let out := readNumberGo [] st.pos st.rest
  (out.1, startPos, out.2)

/-- handleNumberToken (lexer.go lines 262-278): back the reader up, read the
number run, and return a NUM token when the run passes isValidJSONNumber or
an ILLEGAL token carrying the full run otherwise.  The branch for a non-EOF
read error (which would return an ILLEGAL token holding only r) is
unreachable on a pure in-memory input and is not represented. -/
def handleNumberToken (st : LexerState) (r : Char) : Token × LexerState :=
  let st1 := backupReader r st
  let out := readNumber st1
  let token :=
    if isValidJSONNumber out.1 then createToken TokenType.NUM out.2.1 out.1
    else createToken TokenType.ILLEGAL out.2.1 out.1
  (token, out.2.2)

/-- The reading loop of readString (lexer.go lines 338-353), with
advanceReader inlined as a pattern match on the unread characters: stop at a
closing quote whose immediately preceding collected rune is not a backslash;
a quote met while the collected content is empty makes the Go code index
str at position minus one, a runtime panic, modelled by none; end of input
stops the loop returning what was collected. -/
def readStringGo (str : List Char) (pos : LexerPosition) :
    List Char → Option (List Char × LexerState)
  | [] => some (str, { rest := [], pos := pos })
  | c :: cs =>
      let pos1 : LexerPosition := { line := pos.line, column := pos.column + 1 }
      if c = '"' then
        match str.getLast? with
        | none => none
        | some last =>
            if last = '\\' then readStringGo (str ++ [c]) pos1 cs
            else some (str, { rest := cs, pos := pos1 })
      else
        readStringGo (str ++ [c]) pos1 cs

/-- readString (lexer.go lines 329-356): record the start position as the
column one past the current one, then run the reading loop. -/
def readString (st : LexerState) :
    Option (List Char × LexerPosition × LexerState) :=
  let startPos : LexerPosition := { line := st.pos.line, column := st.pos.column + 1 }
  match readStringGo [] st.pos st.rest with
  | none => none
  | some out => some (out.1, startPos, out.2)

/-- handleStringToken (lexer.go lines 316-326): an empty collected content
yields an ILLEGAL token holding the opening quote, anything else a STR
token holding the collected runes; the panic inside readString propagates. -/
def handleStringToken (st : LexerState) (r : Char) :
    Option (Token × LexerState) :=
  match readString st with
  | none => none
  | some out =>
      let token :=
        if out.1.isEmpty then createToken TokenType.ILLEGAL out.2.1 [r]
        else createToken TokenType.STR out.2.1 out.1
      some (token, out.2.2)

/-- The reading loop of readIdentifier (lexer.go lines 389-404), with
advanceReader inlined as a pattern match on the unread characters: keep
reading letters; on a space or non-letter rune back the reader up and stop;
on end of input stop. -/
def readIdentifierGo (ident : List Char) (pos : LexerPosition) :
    List Char → List Char × LexerState
  | [] => (ident, { rest := [], pos := pos })
  | c :: cs =>
      let pos1 : LexerPosition := { line := pos.line, column := pos.column + 1 }
      if isSpaceGo c ∨ ¬ isLetterGo c then
        (ident, backupReader c { rest := cs, pos := pos1 })
      else
        readIdentifierGo (ident ++ [c]) pos1 cs

/-- readIdentifier (lexer.go lines 380-407): record the start position as
the column one past the current one, then run the reading loop. -/
def readIdentifier (st : LexerState) : List Char × LexerPosition × LexerState :=
  let startPos : LexerPosition := { line := st.pos.line, column := st.pos.column + 1 }
  let out := readIdentifierGo [] st.pos st.rest
  (out.1, startPos, out.2)

/-- handleIdentifierToken (lexer.go lines 359-377): back the reader up, read
the letter run, and classify it as TRUE, FALSE, NULL or ILLEGAL by exact
string comparison. -/
def handleIdentifierToken (st : LexerState) (r : Char) : Token × LexerState :=
  let st1 := backupReader r st
  let out := readIdentifier st1
  let token :=
    if String.mk out.1 = "true" then createToken TokenType.TRUE out.2.1 out.1
    else if String.mk out.1 = "false" then createToken TokenType.FALSE out.2.1 out.1
    else if String.mk out.1 = "null" then createToken TokenType.NULL out.2.1 out.1
    else createToken TokenType.ILLEGAL out.2.1 out.1
  (token, out.2.2)

/-- The scanning loop of GetNextToken (lexer.go lines 73-132), with
advanceReader inlined as a pattern match on the unread characters so the
whitespace-skipping recursion is structural.  Exhausted input yields an EOF
token built from the rune 0 exactly as the source does; the switch is
mirrored branch for branch, including the case that maps the digit zero to
an EOF token.  none models a panic escaping the call. -/
def getNextTokenGo (pos : LexerPosition) :
    List Char → Option (Token × LexerState)
  | [] => some (createToken TokenType.EOF pos ['0'], { rest := [], pos := pos })
  | r :: rest =>
      let pos1 : LexerPosition := { line := pos.line, column := pos.column + 1 }
      if r = ' ' ∨ r = '\t' then
        getNextTokenGo pos1 rest
      else if r = '0' then
        some (createToken TokenType.EOF pos1 [r], { rest := rest, pos := pos1 })
      else if r = '\n' then
        getNextTokenGo (resetPosition pos1) rest
      else if r = '{' then
        some (createToken TokenType.LBRACE pos1 [r], { rest := rest, pos := pos1 })
      else if r = '}' then
        some (createToken TokenType.RBRACE pos1 [r], { rest := rest, pos := pos1 })
      else if r = '[' then
        some (createToken TokenType.LBRACKET pos1 [r], { rest := rest, pos := pos1 })
      else if r = ']' then
        some (createToken TokenType.RBRACKET pos1 [r], { rest := rest, pos := pos1 })
      else if r = ',' then
        some (createToken TokenType.COMMA pos1 [r], { rest := rest, pos := pos1 })
      else if r = ':' then
        some (createToken TokenType.COLON pos1 [r], { rest := rest, pos := pos1 })
      else if r = '"' then
        handleStringToken { rest := rest, pos := pos1 } r
      else if isNumberMaybe r then
        some (handleNumberToken { rest := rest, pos := pos1 } r)
      else if isLetterGo r then
        some (handleIdentifierToken { rest := rest, pos := pos1 } r)
      else
        some (createToken TokenType.ILLEGAL pos1 [r], { rest := rest, pos := pos1 })

/-- GetNextToken (lexer.go lines 73-132) on the embedded lexer state. -/
def GetNextToken (st : LexerState) : Option (Token × LexerState) :=
  getNextTokenGo st.pos st.rest

/-- The token-collecting loop of Lex (lexer.go lines 58-68): call
GetNextToken repeatedly, stop without appending when an EOF-typed token
comes back, append every other token.  The loop is driven by a fuel
parameter; the theorem lexLoopFuel_irrelevant below shows any fuel larger
than the number of unread characters gives the same result, so the fuel
choice made by Lex is immaterial. -/
def lexLoopFuel : Nat → LexerState → Option (List Token)
  | 0, _ => none
  | Nat.succ n, st =>
      match GetNextToken st with
      | none => none
      | some tokSt =>
          if tokSt.1.tokType = TokenType.EOF then
            some []
          else
            match lexLoopFuel n tokSt.2 with
            | none => none
            | some toks => some (tokSt.1 :: toks)

/-- Lex (lexer.go lines 46-70): opening the file may fail, which Lex
reports by returning the empty token slice; a successfully opened file is
embedded as some list of characters and is tokenized from a fresh lexer.
The outer Option of the result models a panic escaping Lex. -/
def Lex (file : Option (List Char)) : Option (List Token) :=
  match file with
  | none => some []
  | some content => lexLoopFuel (content.length + 1) (CreateLexer content)

end JsonLinter

namespace JsonLinter

/-! ### Supporting lemmas -/

/-- createToken always stamps the requested token type on the token it
builds, in the EOF branch as well as the general one. -/
theorem createToken_tokType (t : TokenType) (p : LexerPosition) (l : List Char) :
    (createToken t p l).tokType = t := by
  unfold createToken
  split <;> rfl

/-- No rune accepted by isNumberMaybe is a white-space rune. -/
theorem isNumberMaybe_not_space {c : Char} (h : isNumberMaybe c = true) :
    isSpaceGo c = false := by
  simp [isNumberMaybe, isSpaceGo, Char.le_def] at *
  rcases h with ⟨h1, h2⟩ | h | h | h | h
  · simp [UInt32.le_def, BitVec.le_def, Char.toNat, UInt32.toNat] at *
    omega
  all_goals subst h; decide

/-- No letter rune is a white-space rune. -/
theorem isLetterGo_not_space {c : Char} (h : isLetterGo c = true) :
    isSpaceGo c = false := by
  simp [isLetterGo, isSpaceGo, Char.le_def] at *
  rcases h with ⟨h1, h2⟩ | ⟨h1, h2⟩
  all_goals
    simp [UInt32.le_def, BitVec.le_def, Char.toNat, UInt32.toNat] at *
    omega

/-- Backing the reader up restores at most one character. -/
theorem backupReader_length (c : Char) (st : LexerState) :
    (backupReader c st).rest.length ≤ st.rest.length + 1 := by
  unfold backupReader
  split <;> simp

/-- The string-reading loop never leaves more unread characters than it
started with. -/
theorem readStringGo_length {str : List Char} {pos : LexerPosition}
    {rest : List Char} {out : List Char × LexerState}
    (h : readStringGo str pos rest = some out) :
    out.2.rest.length ≤ rest.length := by
  induction rest generalizing str pos with
  | nil =>
      simp [readStringGo] at h
      subst h
      simp
  | cons c cs ih =>
      simp only [readStringGo] at h
      split at h
      · split at h
        · exact absurd h (by simp)
        · split at h
          · exact Nat.le_succ_of_le (ih h)
          · simp at h
            subst h
            simp
      · exact Nat.le_succ_of_le (ih h)

/-- The number-reading loop never leaves more unread characters than it
started with. -/
theorem readNumberGo_length (num : List Char) (pos : LexerPosition)
    (rest : List Char) :
    (readNumberGo num pos rest).2.rest.length ≤ rest.length := by
  induction rest generalizing num pos with
  | nil => simp [readNumberGo]
  | cons c cs ih =>
      simp only [readNumberGo]
      split
      · simpa using backupReader_length c _
      · exact Nat.le_succ_of_le (ih _ _)

/-- The identifier-reading loop never leaves more unread characters than it
started with. -/
theorem readIdentifierGo_length (ident : List Char) (pos : LexerPosition)
    (rest : List Char) :
    (readIdentifierGo ident pos rest).2.rest.length ≤ rest.length := by
  induction rest generalizing ident pos with
  | nil => simp [readIdentifierGo]
  | cons c cs ih =>
      simp only [readIdentifierGo]
      split
      · simpa using backupReader_length c _
      · exact Nat.le_succ_of_le (ih _ _)

/-- A string token hand-off never leaves more unread characters than it
started with. -/
theorem handleStringToken_length {st : LexerState} {r : Char}
    {out : Token × LexerState} (h : handleStringToken st r = some out) :
    out.2.rest.length ≤ st.rest.length := by
  unfold handleStringToken readString at h
  cases heq : readStringGo [] st.pos st.rest with
  | none => rw [heq] at h; simp at h
  | some out2 =>
      rw [heq] at h
      simp at h
      subst h
      exact readStringGo_length heq

/-- A number token hand-off on a number-maybe rune never leaves more unread
characters than it started with, the pushed-back rune included. -/
theorem handleNumberToken_length {st : LexerState} {r : Char}
    (hr : isNumberMaybe r = true) :
    (handleNumberToken st r).2.rest.length ≤ st.rest.length := by
  simp only [handleNumberToken, readNumber, backupReader]
  split
  · simp only [readNumberGo, hr, isNumberMaybe_not_space hr]
    simp only [Bool.false_eq_true, false_or, not_true_eq_false, if_false]
    exact readNumberGo_length _ _ _
  · exact readNumberGo_length _ _ _

/-- An identifier token hand-off on a letter rune never leaves more unread
characters than it started with, the pushed-back rune included. -/
theorem handleIdentifierToken_length {st : LexerState} {r : Char}
    (hr : isLetterGo r = true) :
    (handleIdentifierToken st r).2.rest.length ≤ st.rest.length := by
  simp only [handleIdentifierToken, readIdentifier, backupReader]
  split
  · simp only [readIdentifierGo, hr, isLetterGo_not_space hr]
    simp only [Bool.false_eq_true, false_or, not_true_eq_false, if_false]
    exact readIdentifierGo_length _ _ _
  · exact readIdentifierGo_length _ _ _

/-- Every call of the scanning loop that returns a non-EOF token strictly
consumes input.  Together with lexLoopFuel_irrelevant this shows the fuel
bound chosen by Lex never runs out, so the fuel-driven loop is a faithful
rendering of the unbounded Go loop. -/
theorem getNextTokenGo_progress {pos : LexerPosition} {rest : List Char}
    {tokSt : Token × LexerState}
    (h : getNextTokenGo pos rest = some tokSt)
    (htok : tokSt.1.tokType ≠ TokenType.EOF) :
    tokSt.2.rest.length < rest.length := by
  induction rest generalizing pos with
  | nil =>
      simp [getNextTokenGo] at h
      subst h
      simp [createToken_tokType] at htok
  | cons c cs ih =>
      simp only [getNextTokenGo] at h
      by_cases h1 : c = ' ' ∨ c = '\t'
      · rw [if_pos h1] at h
        exact Nat.lt_succ_of_lt (ih h)
      rw [if_neg h1] at h
      by_cases h2 : c = '0'
      · rw [if_pos h2] at h
        injection h with h
        subst h
        exact absurd (createToken_tokType _ _ _) htok
      rw [if_neg h2] at h
      by_cases h3 : c = '\n'
      · rw [if_pos h3] at h
        exact Nat.lt_succ_of_lt (ih h)
      rw [if_neg h3] at h
      by_cases h4 : c = '{'
      · rw [if_pos h4] at h
        injection h with h
        subst h
        exact Nat.lt_succ_self _
      rw [if_neg h4] at h
      by_cases h5 : c = '}'
      · rw [if_pos h5] at h
        injection h with h
        subst h
        exact Nat.lt_succ_self _
      rw [if_neg h5] at h
      by_cases h6 : c = '['
      · rw [if_pos h6] at h
        injection h with h
        subst h
        exact Nat.lt_succ_self _
      rw [if_neg h6] at h
      by_cases h7 : c = ']'
      · rw [if_pos h7] at h
        injection h with h
        subst h
        exact Nat.lt_succ_self _
      rw [if_neg h7] at h
      by_cases h8 : c = ','
      · rw [if_pos h8] at h
        injection h with h
        subst h
        exact Nat.lt_succ_self _
      rw [if_neg h8] at h
      by_cases h9 : c = ':'
      · rw [if_pos h9] at h
        injection h with h
        subst h
        exact Nat.lt_succ_self _
      rw [if_neg h9] at h
      by_cases h10 : c = '"'
      · rw [if_pos h10] at h
        exact Nat.lt_succ_of_le (handleStringToken_length h)
      rw [if_neg h10] at h
      by_cases h11 : isNumberMaybe c = true
      · rw [if_pos h11] at h
        injection h with h
        subst h
        exact Nat.lt_succ_of_le (handleNumberToken_length h11)
      rw [if_neg h11] at h
      by_cases h12 : isLetterGo c = true
      · rw [if_pos h12] at h
        injection h with h
        subst h
        exact Nat.lt_succ_of_le (handleIdentifierToken_length h12)
      rw [if_neg h12] at h
      injection h with h
      subst h
      exact Nat.lt_succ_self _

/-- GetNextToken strictly consumes input whenever it returns a non-EOF
token. -/
theorem GetNextToken_progress {st : LexerState} {tokSt : Token × LexerState}
    (h : GetNextToken st = some tokSt)
    (htok : tokSt.1.tokType ≠ TokenType.EOF) :
    tokSt.2.rest.length < st.rest.length :=
  getNextTokenGo_progress h htok

/-- Any two fuel values strictly above the number of unread characters give
the token-collecting loop the same result: the fuel is an artifact of the
embedding, not a behaviour of the modelled loop. -/
theorem lexLoopFuel_irrelevant :
    ∀ (m n1 n2 : Nat) (st : LexerState), st.rest.length ≤ m →
      st.rest.length < n1 → st.rest.length < n2 →
      lexLoopFuel n1 st = lexLoopFuel n2 st := by
  intro m
  induction m with
  | zero =>
      intro n1 n2 st hm h1 h2
      obtain ⟨a, rfl⟩ : ∃ a, n1 = a + 1 := ⟨n1 - 1, by omega⟩
      obtain ⟨b, rfl⟩ : ∃ b, n2 = b + 1 := ⟨n2 - 1, by omega⟩
      simp only [lexLoopFuel]
      cases hGN : GetNextToken st with
      | none => rfl
      | some tokSt =>
          dsimp only
          by_cases hEOF : tokSt.1.tokType = TokenType.EOF
          · simp only [if_pos hEOF]
          · exact absurd (GetNextToken_progress hGN hEOF) (by omega)
  | succ m ih =>
      intro n1 n2 st hm h1 h2
      obtain ⟨a, rfl⟩ : ∃ a, n1 = a + 1 := ⟨n1 - 1, by omega⟩
      obtain ⟨b, rfl⟩ : ∃ b, n2 = b + 1 := ⟨n2 - 1, by omega⟩
      simp only [lexLoopFuel]
      cases hGN : GetNextToken st with
      | none => rfl
      | some tokSt =>
          dsimp only
          by_cases hEOF : tokSt.1.tokType = TokenType.EOF
          · simp only [if_pos hEOF]
          · simp only [if_neg hEOF]
            have hlt := GetNextToken_progress hGN hEOF
            rw [ih a b tokSt.2 (by omega) (by omega) (by omega)]

/-- The fuel bound chosen by Lex is immaterial: any strictly sufficient
fuel computes the same token list. -/
theorem Lex_fuel_stable (content : List Char) (n : Nat)
    (hn : content.length < n) :
    lexLoopFuel n (CreateLexer content) = Lex (some content) := by
  simp only [Lex]
  have hrest : (CreateLexer content).rest.length = content.length := rfl
  exact lexLoopFuel_irrelevant content.length n (content.length + 1)
    (CreateLexer content) (by omega) (by omega) (by omega)

/-- Every token list the collecting loop returns is free of EOF-typed
tokens, because the loop breaks before appending the token that made it
stop. -/
theorem lexLoopFuel_no_eof {n : Nat} {st : LexerState} {ts : List Token}
    (h : lexLoopFuel n st = some ts) :
    ∀ t ∈ ts, t.tokType ≠ TokenType.EOF := by
  induction n generalizing st ts with
  | zero => simp [lexLoopFuel] at h
  | succ n ih =>
      simp only [lexLoopFuel] at h
      split at h
      · exact absurd h (by simp)
      · rename_i tokSt heq
        split at h
        · simp at h
          subst h
          simp
        · rename_i hEOF
          split at h
          · exact absurd h (by simp)
          · rename_i toks heq2
            simp at h
            subst h
            intro t ht
            rcases List.mem_cons.mp ht with rfl | hmem
            · exact hEOF
            · exact ih heq2 t hmem

/-- Field content of createToken for a non-EOF kind: lexeme is the runes
as a string, the recorded line and column start are those of the position
handed in, and the column end is the start plus the rune count minus one. -/
theorem createToken_fields {ty : TokenType} (pos : LexerPosition)
    (chars : List Char) (h : ty ≠ TokenType.EOF) :
    (createToken ty pos chars).lexeme = String.mk chars ∧
    (createToken ty pos chars).tokPos.line = pos.line ∧
    (createToken ty pos chars).tokPos.colStart = pos.column ∧
    (createToken ty pos chars).tokPos.colEnd = pos.column + chars.length - 1 := by
  unfold createToken
  rw [if_neg h]
  exact ⟨rfl, rfl, rfl, rfl⟩

/-- Width law of createToken, phrased on the token's own fields: for a
non-EOF kind the column end is the column start plus the rune count of the
token's lexeme minus one. -/
theorem createToken_width {ty : TokenType} (pos : LexerPosition)
    (chars : List Char) (h : ty ≠ TokenType.EOF) :
    (createToken ty pos chars).tokPos.colEnd =
      (createToken ty pos chars).tokPos.colStart +
        (createToken ty pos chars).lexeme.data.length - 1 := by
  obtain ⟨hl, _, hs, he⟩ := createToken_fields pos chars h
  rw [hl, hs, he]

/-- The number-reading loop only ever appends to its accumulator. -/
theorem readNumberGo_acc (num : List Char) (pos : LexerPosition)
    (rest : List Char) :
    ∃ tail, (readNumberGo num pos rest).1 = num ++ tail := by
  induction rest generalizing num pos with
  | nil => exact ⟨[], by simp [readNumberGo]⟩
  | cons c cs ih =>
      by_cases hc : (isSpaceGo c = true ∨ isNumberMaybe c = false)
      · exact ⟨[], by simp [readNumberGo, hc]⟩
      · obtain ⟨t, ht⟩ := ih (num ++ [c]) ⟨pos.line, pos.column + 1⟩
        exact ⟨c :: t, by simp [readNumberGo, hc, ht]⟩

/-- The identifier-reading loop only ever appends to its accumulator. -/
theorem readIdentifierGo_acc (ident : List Char) (pos : LexerPosition)
    (rest : List Char) :
    ∃ tail, (readIdentifierGo ident pos rest).1 = ident ++ tail := by
  induction rest generalizing ident pos with
  | nil => exact ⟨[], by simp [readIdentifierGo]⟩
  | cons c cs ih =>
      by_cases hc : (isSpaceGo c = true ∨ isLetterGo c = false)
      · exact ⟨[], by simp [readIdentifierGo, hc]⟩
      · obtain ⟨t, ht⟩ := ih (ident ++ [c]) ⟨pos.line, pos.column + 1⟩
        exact ⟨c :: t, by simp [readIdentifierGo, hc, ht]⟩

/-- The string-reading loop only ever appends to its accumulator. -/
theorem readStringGo_acc {str : List Char} {pos : LexerPosition}
    {rest : List Char} {out : List Char × LexerState}
    (h : readStringGo str pos rest = some out) :
    ∃ tail, out.1 = str ++ tail := by
  induction rest generalizing str pos with
  | nil =>
      simp [readStringGo] at h
      subst h
      exact ⟨[], by simp⟩
  | cons c cs ih =>
      simp only [readStringGo] at h
      split at h
      · split at h
        · exact absurd h (by simp)
        · split at h
          · obtain ⟨t, ht⟩ := ih h
            exact ⟨c :: t, by simp [ht]⟩
          · simp at h
            subst h
            exact ⟨[], by simp⟩
      · obtain ⟨t, ht⟩ := ih h
        exact ⟨c :: t, by simp [ht]⟩

/-- Started on a number-maybe rune, the number-reading loop collects that
rune first: the collected run begins with the first consumed character. -/
theorem readNumberGo_head (pos : LexerPosition) (rest : List Char) {r : Char}
    (hr : isNumberMaybe r = true) :
    ∃ tail, (readNumberGo [] pos (r :: rest)).1 = r :: tail := by
  obtain ⟨t, ht⟩ := readNumberGo_acc [r] ⟨pos.line, pos.column + 1⟩ rest
  refine ⟨t, ?_⟩
  simp [readNumberGo, hr, isNumberMaybe_not_space hr, ht]

/-- Started on a letter rune, the identifier-reading loop collects that
rune first: the collected run begins with the first consumed character. -/
theorem readIdentifierGo_head (pos : LexerPosition) (rest : List Char)
    {r : Char} (hr : isLetterGo r = true) :
    ∃ tail, (readIdentifierGo [] pos (r :: rest)).1 = r :: tail := by
  obtain ⟨t, ht⟩ := readIdentifierGo_acc [r] ⟨pos.line, pos.column + 1⟩ rest
  refine ⟨t, ?_⟩
  simp [readIdentifierGo, hr, isLetterGo_not_space hr, ht]

/-- A nonempty string content collected by the string-reading loop begins
with the first consumed character of the input. -/
theorem readStringGo_headEq {pos : LexerPosition} {rest : List Char}
    {out : List Char × LexerState}
    (h : readStringGo [] pos rest = some out) (hne : out.1 ≠ []) :
    out.1.head? = rest.head? := by
  cases rest with
  | nil =>
      simp [readStringGo] at h
      subst h
      simp at hne
  | cons c cs =>
      simp only [readStringGo] at h
      split at h
      · split at h
        · exact absurd h (by simp)
        · rename_i last heq
          simp at heq
      · obtain ⟨t, ht⟩ := readStringGo_acc h
        rw [ht]
        simp

/-- Start-position law of the number handler.  The handler is entered in
the state reached right after GetNextToken consumed the first rune r of
the run at column st.pos.column (necessarily positive after a read): the
produced token records exactly that line and column as its start, and its
lexeme begins with r — the recorded position is the position of the first
consumed character of the lexeme. -/
theorem handleNumberToken_startPos {st : LexerState} {r : Char}
    (hc : 0 < st.pos.column) (hr : isNumberMaybe r = true) :
    (handleNumberToken st r).1.tokPos.line = st.pos.line ∧
    (handleNumberToken st r).1.tokPos.colStart = st.pos.column ∧
    (handleNumberToken st r).1.lexeme.data.head? = some r := by
  obtain ⟨t, ht⟩ := readNumberGo_head ⟨st.pos.line, st.pos.column - 1⟩ st.rest hr
  unfold handleNumberToken readNumber backupReader
  rw [if_pos hc]
  dsimp only
  rw [ht]
  split <;>
    refine ⟨?_, ?_, ?_⟩ <;>
      simp [createToken]

/-- Start-position law of the identifier handler, in the same sense as for
the number handler: the token's recorded start is the column at which the
first letter r was consumed, and the lexeme begins with r. -/
theorem handleIdentifierToken_startPos {st : LexerState} {r : Char}
    (hc : 0 < st.pos.column) (hr : isLetterGo r = true) :
    (handleIdentifierToken st r).1.tokPos.line = st.pos.line ∧
    (handleIdentifierToken st r).1.tokPos.colStart = st.pos.column ∧
    (handleIdentifierToken st r).1.lexeme.data.head? = some r := by
  obtain ⟨t, ht⟩ :=
    readIdentifierGo_head ⟨st.pos.line, st.pos.column - 1⟩ st.rest hr
  unfold handleIdentifierToken readIdentifier backupReader
  rw [if_pos hc]
  dsimp only
  rw [ht]
  split <;> (try split) <;> (try split) <;>
    refine ⟨?_, ?_, ?_⟩ <;>
      simp [createToken]

/-- Start-position law of the string handler.  The handler is entered in
the state reached right after the opening quote was consumed at column
st.pos.column; the first character of the string's lexeme (its content,
the quotes excluded) is the head of the remaining input, consumed at
column st.pos.column + 1: the produced token records exactly that column
as its start, and a STR token's lexeme begins with that character. -/
theorem handleStringToken_startPos {st : LexerState} {r : Char}
    {out : Token × LexerState} (h : handleStringToken st r = some out) :
    out.1.tokPos.line = st.pos.line ∧
    out.1.tokPos.colStart = st.pos.column + 1 ∧
    (out.1.tokType = TokenType.STR →
      out.1.lexeme.data.head? = st.rest.head?) := by
  unfold handleStringToken readString at h
  cases heq : readStringGo [] st.pos st.rest with
  | none => rw [heq] at h; simp at h
  | some out2 =>
      rw [heq] at h
      simp at h
      subst h
      dsimp only
      split
      · rename_i hempty
        refine ⟨by simp [createToken], by simp [createToken], ?_⟩
        intro hSTR
        simp [createToken] at hSTR
      · rename_i hempty
        refine ⟨by simp [createToken], by simp [createToken], ?_⟩
        intro _
        have hne : out2.1 ≠ [] := by
          intro hx
          simp [hx] at hempty
        simp only [createToken]
        simp
        exact readStringGo_headEq heq hne

/-- Width law of the number handler's token. -/
theorem handleNumberToken_width (st : LexerState) (r : Char) :
    (handleNumberToken st r).1.tokPos.colEnd =
      (handleNumberToken st r).1.tokPos.colStart +
        (handleNumberToken st r).1.lexeme.data.length - 1 := by
  unfold handleNumberToken
  dsimp only
  split
  · exact createToken_width _ _ (by decide)
  · exact createToken_width _ _ (by decide)

/-- Width law of the identifier handler's token. -/
theorem handleIdentifierToken_width (st : LexerState) (r : Char) :
    (handleIdentifierToken st r).1.tokPos.colEnd =
      (handleIdentifierToken st r).1.tokPos.colStart +
        (handleIdentifierToken st r).1.lexeme.data.length - 1 := by
  unfold handleIdentifierToken
  dsimp only
  split <;> (try split) <;> (try split) <;>
    exact createToken_width _ _ (by decide)

/-- Width law of the string handler's token. -/
theorem handleStringToken_width {st : LexerState} {r : Char}
    {out : Token × LexerState} (h : handleStringToken st r = some out) :
    out.1.tokPos.colEnd =
      out.1.tokPos.colStart + out.1.lexeme.data.length - 1 := by
  unfold handleStringToken readString at h
  cases heq : readStringGo [] st.pos st.rest with
  | none => rw [heq] at h; simp at h
  | some out2 =>
      rw [heq] at h
      simp at h
      subst h
      dsimp only
      split
      · exact createToken_width _ _ (by decide)
      · exact createToken_width _ _ (by decide)

/-- Every non-EOF token produced by the scanning loop satisfies the width
law: its column end is its column start plus the rune count of its lexeme
minus one. -/
theorem getNextTokenGo_width {pos : LexerPosition} {rest : List Char}
    {tokSt : Token × LexerState}
    (h : getNextTokenGo pos rest = some tokSt)
    (htok : tokSt.1.tokType ≠ TokenType.EOF) :
    tokSt.1.tokPos.colEnd =
      tokSt.1.tokPos.colStart + tokSt.1.lexeme.data.length - 1 := by
  induction rest generalizing pos with
  | nil =>
      simp [getNextTokenGo] at h
      subst h
      simp [createToken_tokType] at htok
  | cons c cs ih =>
      simp only [getNextTokenGo] at h
      by_cases h1 : c = ' ' ∨ c = '\t'
      · rw [if_pos h1] at h
        exact ih h
      rw [if_neg h1] at h
      by_cases h2 : c = '0'
      · rw [if_pos h2] at h
        injection h with h
        subst h
        exact absurd (createToken_tokType _ _ _) htok
      rw [if_neg h2] at h
      by_cases h3 : c = '\n'
      · rw [if_pos h3] at h
        exact ih h
      rw [if_neg h3] at h
      by_cases h4 : c = '{'
      · rw [if_pos h4] at h
        injection h with h
        subst h
        exact createToken_width _ _ (by decide)
      rw [if_neg h4] at h
      by_cases h5 : c = '}'
      · rw [if_pos h5] at h
        injection h with h
        subst h
        exact createToken_width _ _ (by decide)
      rw [if_neg h5] at h
      by_cases h6 : c = '['
      · rw [if_pos h6] at h
        injection h with h
        subst h
        exact createToken_width _ _ (by decide)
      rw [if_neg h6] at h
      by_cases h7 : c = ']'
      · rw [if_pos h7] at h
        injection h with h
        subst h
        exact createToken_width _ _ (by decide)
      rw [if_neg h7] at h
      by_cases h8 : c = ','
      · rw [if_pos h8] at h
        injection h with h
        subst h
        exact createToken_width _ _ (by decide)
      rw [if_neg h8] at h
      by_cases h9 : c = ':'
      · rw [if_pos h9] at h
        injection h with h
        subst h
        exact createToken_width _ _ (by decide)
      rw [if_neg h9] at h
      by_cases h10 : c = '"'
      · rw [if_pos h10] at h
        exact handleStringToken_width h
      rw [if_neg h10] at h
      by_cases h11 : isNumberMaybe c = true
      · rw [if_pos h11] at h
        injection h with h
        subst h
        exact handleNumberToken_width _ _
      rw [if_neg h11] at h
      by_cases h12 : isLetterGo c = true
      · rw [if_pos h12] at h
        injection h with h
        subst h
        exact handleIdentifierToken_width _ _
      rw [if_neg h12] at h
      injection h with h
      subst h
      exact createToken_width _ _ (by decide)

/-- The width law lifted to GetNextToken on the embedded lexer state. -/
theorem GetNextToken_width {st : LexerState} {tokSt : Token × LexerState}
    (h : GetNextToken st = some tokSt)
    (htok : tokSt.1.tokType ≠ TokenType.EOF) :
    tokSt.1.tokPos.colEnd =
      tokSt.1.tokPos.colStart + tokSt.1.lexeme.data.length - 1 :=
  getNextTokenGo_width h htok

end JsonLinter

namespace JsonLinter

/-! ### Claim theorems -/

/-- C1: the claim that every RFC 8259 conforming input tokenizes with zero
ILLEGAL tokens fails on the code.  The RFC-valid number text 1e+2 — which
the code's own number validator isValidJSONNumber accepts — is tokenized
into two ILLEGAL tokens followed by a NUM token, because the collector
isNumberMaybe does not admit the plus sign and cuts the run at "1e". -/
theorem claim_C1 :
    isValidJSONNumber ['1', 'e', '+', '2'] = true ∧
    Lex (some ['1', 'e', '+', '2']) =
      some [⟨TokenType.ILLEGAL, "1e", ⟨1, 1, 2⟩⟩,
            ⟨TokenType.ILLEGAL, "+", ⟨1, 3, 3⟩⟩,
            ⟨TokenType.NUM, "2", ⟨1, 4, 4⟩⟩] := by
  exact ⟨by decide, by decide⟩

/-- C2: the claim that GetNextToken never panics fails on the code.  On the
two-character input of an opening and a closing double quote, readString
indexes the empty collected content at position minus one, a runtime panic
(modelled by none) escaping GetNextToken. -/
theorem claim_C2 :
    GetNextToken (CreateLexer ['"', '"']) = none := by
  decide

/-- C3: the claim that the empty string literal scans to an empty-lexeme
STR token without out-of-bounds access fails on the code.  Scanning the
content of the empty string literal hits the out-of-range index in
readString (the getLast of the empty collected content), so the string
handler panics (none) instead of producing any token. -/
theorem claim_C3 :
    readStringGo [] ⟨1, 1⟩ ['"'] = none ∧
    handleStringToken ⟨['"'], ⟨1, 1⟩⟩ '"' = none := by
  exact ⟨by decide, by decide⟩

/-- C4: the claim that an EOF token is returned exactly when the input is
exhausted fails on the code.  Reading the digit zero makes GetNextToken
return an EOF token while an unconsumed character remains in the input. -/
theorem claim_C4 :
    GetNextToken (CreateLexer ['0', ',']) =
      some (⟨TokenType.EOF, "EOF", ⟨1, 1, 1⟩⟩, ⟨[','], ⟨1, 1⟩⟩) ∧
    ([','] : List Char) ≠ [] := by
  exact ⟨by decide, by decide⟩

/-- C5: the claim that an unterminated string yields an ILLEGAL token
carrying the collected characters fails on the code.  readString returns a
nil error when the input ends before a closing quote, so handleStringToken
builds a STR token from the collected characters instead of an ILLEGAL
one. -/
theorem claim_C5 :
    GetNextToken (CreateLexer ['"', 'a', 'b']) =
      some (⟨TokenType.STR, "ab", ⟨1, 2, 3⟩⟩, ⟨[], ⟨1, 3⟩⟩) := by
  decide

/-- C6: the claim that a closing quote terminates the string exactly when
the run of immediately preceding backslashes is even fails on the code.
For the string literal whose content is an escaped backslash (two
backslashes, an even run, then a quote) the code inspects only the single
preceding character, treats the quote as escaped, swallows it into the
lexeme and runs to end of input: the resulting STR lexeme contains the
closing quote instead of ending before it. -/
theorem claim_C6 :
    GetNextToken (CreateLexer ['"', '\\', '\\', '"']) =
      some (⟨TokenType.STR, String.mk ['\\', '\\', '"'], ⟨1, 2, 4⟩⟩,
            ⟨[], ⟨1, 4⟩⟩) := by
  decide

/-- C7: of the claimed number classifications, 1.23e-10 → NUM,
-1.2.3 → ILLEGAL and e10 → ILLEGAL hold, but 01 → ILLEGAL fails on the
code: the digit zero is intercepted by the EOF case of GetNextToken, so
lexing 01 produces an empty token list instead of an ILLEGAL token
carrying the full run. -/
theorem claim_C7 :
    GetNextToken (CreateLexer ['1', '.', '2', '3', 'e', '-', '1', '0']) =
      some (⟨TokenType.NUM, "1.23e-10", ⟨1, 1, 8⟩⟩, ⟨[], ⟨1, 8⟩⟩) ∧
    GetNextToken (CreateLexer ['-', '1', '.', '2', '.', '3']) =
      some (⟨TokenType.ILLEGAL, "-1.2.3", ⟨1, 1, 6⟩⟩, ⟨[], ⟨1, 6⟩⟩) ∧
    GetNextToken (CreateLexer ['e', '1', '0']) =
      some (⟨TokenType.ILLEGAL, "e10", ⟨1, 1, 3⟩⟩, ⟨[], ⟨1, 3⟩⟩) ∧
    Lex (some ['0', '1']) = some [] := by
  exact ⟨by decide, by decide, by decide, by decide⟩

/-- C8: positions are recorded as claimed.  Lexing the two-character
object braces input yields LBRACE at line 1 columns 1-1, RBRACE at line 1
columns 2-2, then an EOF token.  Two concrete multi-character tokens with
nontrivial start columns behave likewise: after two spaces the number 123
is a NUM spanning columns 3-5 (its first character was consumed at column
3), and after one space the string literal of content ab is a STR spanning
columns 3-4 (its first content character was consumed at column 3, the
quotes not part of the lexeme).  In general: createToken stamps colStart
with the position handed in and colEnd = colStart + rune count - 1; every
non-EOF token GetNextToken produces satisfies that width law on its own
fields; and each multi-character scanner records the position of the first
consumed character of its lexeme — the number and identifier handlers,
entered right after their first rune r was consumed at the current column,
record exactly that line and column and produce a lexeme beginning with r,
and the string handler, entered right after the opening quote was consumed
at the current column, records the next column (where its first content
character is consumed) and produces a STR lexeme beginning with the head
of the remaining input. -/
theorem claim_C8 :
    GetNextToken (CreateLexer ['{', '}']) =
      some (⟨TokenType.LBRACE, "\x7b", ⟨1, 1, 1⟩⟩, ⟨['}'], ⟨1, 1⟩⟩) ∧
    GetNextToken ⟨['}'], ⟨1, 1⟩⟩ =
      some (⟨TokenType.RBRACE, "\x7d", ⟨1, 2, 2⟩⟩, ⟨[], ⟨1, 2⟩⟩) ∧
    GetNextToken ⟨[], ⟨1, 2⟩⟩ =
      some (⟨TokenType.EOF, "EOF", ⟨1, 2, 2⟩⟩, ⟨[], ⟨1, 2⟩⟩) ∧
    GetNextToken (CreateLexer [' ', ' ', '1', '2', '3']) =
      some (⟨TokenType.NUM, "123", ⟨1, 3, 5⟩⟩, ⟨[], ⟨1, 5⟩⟩) ∧
    GetNextToken (CreateLexer [' ', '"', 'a', 'b', '"']) =
      some (⟨TokenType.STR, "ab", ⟨1, 3, 4⟩⟩, ⟨[], ⟨1, 5⟩⟩) ∧
    (∀ (ty : TokenType) (pos : LexerPosition) (chars : List Char),
      ty ≠ TokenType.EOF →
        (createToken ty pos chars).tokPos.colStart = pos.column ∧
        (createToken ty pos chars).tokPos.colEnd =
          pos.column + chars.length - 1) ∧
    (∀ (st : LexerState) (tokSt : Token × LexerState),
      GetNextToken st = some tokSt → tokSt.1.tokType ≠ TokenType.EOF →
        tokSt.1.tokPos.colEnd =
          tokSt.1.tokPos.colStart + tokSt.1.lexeme.data.length - 1) ∧
    (∀ (st : LexerState) (r : Char), 0 < st.pos.column →
      isNumberMaybe r = true →
        (handleNumberToken st r).1.tokPos.line = st.pos.line ∧
        (handleNumberToken st r).1.tokPos.colStart = st.pos.column ∧
        (handleNumberToken st r).1.lexeme.data.head? = some r) ∧
    (∀ (st : LexerState) (r : Char) (out : Token × LexerState),
      handleStringToken st r = some out →
        out.1.tokPos.line = st.pos.line ∧
        out.1.tokPos.colStart = st.pos.column + 1 ∧
        (out.1.tokType = TokenType.STR →
          out.1.lexeme.data.head? = st.rest.head?)) ∧
    (∀ (st : LexerState) (r : Char), 0 < st.pos.column →
      isLetterGo r = true →
        (handleIdentifierToken st r).1.tokPos.line = st.pos.line ∧
        (handleIdentifierToken st r).1.tokPos.colStart = st.pos.column ∧
        (handleIdentifierToken st r).1.lexeme.data.head? = some r) := by
  refine ⟨by decide, by decide, by decide, by decide, by decide,
    ?_, ?_, ?_, ?_, ?_⟩
  · intro ty pos chars hty
    obtain ⟨_, _, hs, he⟩ := createToken_fields pos chars hty
    exact ⟨hs, he⟩
  · intro st tokSt h htok
    exact GetNextToken_width h htok
  · intro st r hc hr
    exact handleNumberToken_startPos hc hr
  · intro st r out h
    exact handleStringToken_startPos h
  · intro st r hc hr
    exact handleIdentifierToken_startPos hc hr

/-- Witness for C8: the hypothesized laws evaluated at concrete inputs —
the width law at the NUM token produced for the spaces-then-123 input, the
number start law at the state reached after consuming the 1 of 123 at
column 3, the string start law at the state reached after consuming the
opening quote at column 2, and the identifier start law at the state
reached after consuming the t of true at column 1. -/
theorem claim_C8_witness :
    ((⟨TokenType.NUM, "123", ⟨1, 3, 5⟩⟩ : Token).tokPos.colEnd =
      (⟨TokenType.NUM, "123", ⟨1, 3, 5⟩⟩ : Token).tokPos.colStart +
        (⟨TokenType.NUM, "123", ⟨1, 3, 5⟩⟩ : Token).lexeme.data.length - 1) ∧
    ((handleNumberToken ⟨['2', '3'], ⟨1, 3⟩⟩ '1').1.tokPos.colStart = 3 ∧
     (handleNumberToken ⟨['2', '3'], ⟨1, 3⟩⟩ '1').1.lexeme.data.head? =
       some '1') ∧
    ((⟨TokenType.STR, "ab", ⟨1, 3, 4⟩⟩ : Token).tokPos.colStart = 2 + 1 ∧
     (⟨TokenType.STR, "ab", ⟨1, 3, 4⟩⟩ : Token).lexeme.data.head? =
       (['a', 'b', '"'] : List Char).head?) ∧
    ((handleIdentifierToken ⟨['r', 'u', 'e'], ⟨1, 1⟩⟩ 't').1.tokPos.colStart = 1 ∧
     (handleIdentifierToken ⟨['r', 'u', 'e'], ⟨1, 1⟩⟩ 't').1.lexeme.data.head? =
       some 't') := by
  have hwidth := claim_C8.2.2.2.2.2.2.1
    (CreateLexer [' ', ' ', '1', '2', '3'])
    (⟨TokenType.NUM, "123", ⟨1, 3, 5⟩⟩, ⟨[], ⟨1, 5⟩⟩) (by decide) (by decide)
  have hnum := claim_C8.2.2.2.2.2.2.2.1 ⟨['2', '3'], ⟨1, 3⟩⟩ '1'
    (by decide) (by decide)
  have hstr := claim_C8.2.2.2.2.2.2.2.2.1 ⟨['a', 'b', '"'], ⟨1, 2⟩⟩ '"'
    (⟨TokenType.STR, "ab", ⟨1, 3, 4⟩⟩, ⟨[], ⟨1, 5⟩⟩) (by decide)
  have hid := claim_C8.2.2.2.2.2.2.2.2.2 ⟨['r', 'u', 'e'], ⟨1, 1⟩⟩ 't'
    (by decide) (by decide)
  exact ⟨hwidth, ⟨hnum.2.1, hnum.2.2⟩, ⟨hstr.2.1, hstr.2.2 (by decide)⟩,
    ⟨hid.2.1, hid.2.2⟩⟩

/-- C9: the token slice returned by Lex never contains an EOF-typed token:
the collecting loop breaks on the first EOF-typed token without appending
it, so the consumer receives no end-of-stream marker. -/
theorem claim_C9 (input : List Char) (ts : List Token)
    (h : Lex (some input) = some ts) :
    ∀ t ∈ ts, t.tokType ≠ TokenType.EOF := by
  simp only [Lex] at h
  exact lexLoopFuel_no_eof h

/-- Witness for C9: the no-EOF law applied to the concrete braces input,
whose Lex output is the two-token list computed by decide. -/
theorem claim_C9_witness :
    (⟨TokenType.LBRACE, "\x7b", ⟨1, 1, 1⟩⟩ : Token).tokType ≠ TokenType.EOF :=
  claim_C9 ['{', '}']
    [⟨TokenType.LBRACE, "\x7b", ⟨1, 1, 1⟩⟩, ⟨TokenType.RBRACE, "\x7d", ⟨1, 2, 2⟩⟩]
    (by decide) ⟨TokenType.LBRACE, "\x7b", ⟨1, 1, 1⟩⟩ (by decide)

/-- C10: when the file cannot be opened (the none input) Lex returns the
empty token slice and no error value, and that result is identical to the
result of lexing an empty file. -/
theorem claim_C10 :
    Lex none = some [] ∧ Lex (some []) = some [] ∧
    Lex none = Lex (some []) := by
  exact ⟨rfl, by decide, by decide⟩

end JsonLinter
